import Mathlib

/-!
Shallow embedding of the availability computation engine of
`src/app/etl.py` (fastapi-bestand).

Text is embedded as lists of Unicode code points (`List Nat`); `codes`
converts a Lean string literal into that representation.  Quantities are
embedded as exact rationals (`ℚ`), calendar dates as integers counting
days since 1970-01-01 (which was a Thursday, so `d % 7 = 2` is Saturday
and `d % 7 = 3` is Sunday, matching numpy's business-day arithmetic).
Missing values (pandas `NaN` / `NaT`) are `Option.none`.
-/

namespace Bestand

/-- Code points of a string literal, used to build concrete inputs. -/
def codes (s : String) : List Nat := s.data.map Char.toNat

/-! ### Text primitives shared by the pipeline -/

/-- ASCII lowercasing of one code point (embeds `str.lower` for the
identifiers and markers the pipeline manipulates). -/
def lowerCode (n : Nat) : Nat := if 65 ≤ n ∧ n ≤ 90 then n + 32 else n

/-- The characters removed everywhere by `_clean_part_series`:
CR, LF, TAB (the regex class `[\r\n\t]`), the double quote `"`,
the no-break space `\xa0` and the byte-order mark `﻿`. -/
def isNoiseCode (n : Nat) : Bool :=
  n == 13 || n == 10 || n == 9 || n == 34 || n == 160 || n == 65279

/-- Whitespace stripped from the ends by Python's `str.strip()`. -/
def isSpaceCode (n : Nat) : Bool :=
  n == 32 || n == 9 || n == 10 || n == 13 || n == 11 || n == 12 ||
  n == 28 || n == 29 || n == 30 || n == 31 || n == 133 || n == 160

/-- Drop trailing whitespace. -/
def dropTrail (l : List Nat) : List Nat :=
  ((l.reverse.dropWhile isSpaceCode)).reverse

/-- Python `str.strip()`: drop leading and trailing whitespace. -/
def stripL (l : List Nat) : List Nat :=
  dropTrail (l.dropWhile isSpaceCode)

/-- Embedding of `_clean_part_series` applied to one value: remove
CR/LF/TAB, the BOM, the no-break space and double quotes everywhere,
then strip surrounding whitespace, then lowercase
(`etl.py` lines 23-32). -/
def cleanPart (s : List Nat) : List Nat :=
  (stripL (s.filter (fun c => !(isNoiseCode c)))).map lowerCode

/-- Test whether the second list starts with the first. -/
def startsL : List Nat → List Nat → Bool
  | [], _ => true
  | _ :: _, [] => false
  | p :: ps, c :: cs => (p == c) && startsL ps cs

/-- Test whether `pat` occurs as a contiguous run inside the argument. -/
def hasSubL (pat : List Nat) : List Nat → Bool
  | [] => startsL pat []
  | c :: cs => startsL pat (c :: cs) || hasSubL pat cs

/-- Case-insensitive substring containment, embedding
`Series.str.contains(pat, case=False)`. -/
def hasSubCI (s pat : List Nat) : Bool :=
  hasSubL (pat.map lowerCode) (s.map lowerCode)

/-! ### Business-day arithmetic (`busday_add`, `etl.py` lines 64-66)

`np.busday_offset(start, days, roll="forward", weekmask="Mon Tue Wed Thu Fri")`:
the start date is first rolled forward to the next weekday when it falls
on a weekend, then advanced by `days` weekdays. -/

/-- Is day `d` a weekday (Mon-Fri)?  Epoch day 0 = Thursday. -/
def isBusday (d : ℤ) : Bool := !(d % 7 == 2 || d % 7 == 3)

/-- Roll forward to the next weekday (identity on weekdays). -/
def rollF (d : ℤ) : ℤ :=
  if isBusday d then d else if isBusday (d + 1) then d + 1 else d + 2

/-- Roll backward to the previous weekday (identity on weekdays). -/
def rollB (d : ℤ) : ℤ :=
  if isBusday d then d else if isBusday (d - 1) then d - 1 else d - 2

/-- Next weekday strictly after `d`. -/
def stepF (d : ℤ) : ℤ := rollF (d + 1)

/-- Previous weekday strictly before `d`. -/
def stepB (d : ℤ) : ℤ := rollB (d - 1)

/-- Advance a weekday by `n` weekdays. -/
def iterF (d : ℤ) : Nat → ℤ
  | 0 => d
  | n + 1 => iterF (stepF d) n

/-- Retreat a weekday by `n` weekdays. -/
def iterB (d : ℤ) : Nat → ℤ
  | 0 => d
  | n + 1 => iterB (stepB d) n

/-- Embedding of `busday_add` (`np.busday_offset` with forward roll). -/
def busday_add (start : ℤ) (days : ℤ) : ℤ :=
  if 0 ≤ days then iterF (rollF start) days.toNat
  else iterB (rollF start) (-days).toNat

/-! ### The prepared transaction (dispo) row

After `_prepare_frames` (`etl.py` lines 174-190) every dispo row has:
the raw `Teil` text, its normalized key `Teil_norm`, a coerced `Termin`
date (`NaT` = `none`), numeric `Deckungsmenge` and `Bedarfsmenge`
(defaulting to 0), and the guaranteed string columns `Herkunftsbelegart`,
`HBA`, `Beleginfo`, `KommNr` (empty string when absent). -/

structure DispoRow where
  teil : List Nat
  teilNorm : List Nat
  termin : Option ℤ
  deckung : ℚ
  bedarf : ℚ
  herkunftsbelegart : List Nat
  hba : List Nat
  beleginfo : List Nat
  kommNr : List Nat
  deriving DecidableEq, Repr

/-- The free-text marker for a lead-time document ("WBZ DisB"). -/
def markerWbz : List Nat := codes ("WBZ DisB")

/-- The sub-variant preference marker ("DisB 0"). -/
def markerDisb0 : List Nat := codes ("DisB 0")

/-- Embedding of `calc_wbz_end` (`etl.py` lines 68-76): if some row's
`Beleginfo` contains "WBZ DisB" (case-insensitive), return the `Termin`
of the first such row that also contains "DisB 0", or of the first such
row if none does; otherwise advance today by `wbz_days` business days.
(`Beleginfo` always exists after `_prepare_frames`, so the column-presence
guard of line 69 is satisfied in the pipeline.) -/
def calc_wbz_end (grp : List DispoRow) (wbz_days : ℤ) (today : ℤ) : Option ℤ :=
  let wbzRows := grp.filter (fun r => hasSubCI r.beleginfo markerWbz)
  match wbzRows with
  | [] => some (busday_add today wbz_days)
  | w :: ws =>
      match (w :: ws).filter (fun r => hasSubCI r.beleginfo markerDisb0) with
      | [] => w.termin
      | p :: _ => p.termin

/-- Window membership: the row's date exists and is on or before the
(window end, which is `none` when the override row carried `NaT`);
embeds `dropna(subset=['Termin'])` followed by `Termin <= wbz_end`. -/
def inWin (wbzEnd : Option ℤ) (r : DispoRow) : Bool :=
  match r.termin, wbzEnd with
  | some t, some e => t ≤ e
  | _, _ => false

/-- Result record of `compute_for_part` (`etl.py` lines 113-120). -/
structure PartResult where
  teil : List Nat
  bestandHeute : ℚ
  zugaengeWbz : ℚ
  verbraeucheWbz : ℚ
  heuteFrei : ℚ
  wbzEnde : Option ℤ
  deriving DecidableEq, Repr

/-- Embedding of `compute_for_part` (`etl.py` lines 92-120): resolve the
window end, keep rows with a date on or before it, sum supply
(`Deckungsmenge`) and demand (`Bedarfsmenge`) over those rows, and
report `stock + supply - demand` as freely available today. -/
def compute_for_part (teil_norm : List Nat) (dispo_grp : List DispoRow)
    (wbz_days : ℤ) (stock_qty : ℚ) (today : ℤ) : PartResult :=
  let wbzEnd := calc_wbz_end dispo_grp wbz_days today
  let in_wbz := dispo_grp.filter (inWin wbzEnd)
  let total_cover : ℚ := (in_wbz.map (fun r => r.deckung)).sum
  let total_demand : ℚ := (in_wbz.map (fun r => r.bedarf)).sum
  { teil := match dispo_grp with | [] => teil_norm | r :: _ => r.teil
    bestandHeute := stock_qty
    zugaengeWbz := total_cover
    verbraeucheWbz := total_demand
    heuteFrei := stock_qty + total_cover - total_demand
    wbzEnde := wbzEnd }

/-! ### Numeric and date coercion (`pd.to_numeric` / `pd.to_datetime`
with `errors="coerce"`), embedded for the decimal and ISO-date formats
the feeds carry. -/

/-- Digit test for code points. -/
def isDigitCode (n : Nat) : Bool := 48 ≤ n && n ≤ 57

/-- Value of a digit string (most significant first). -/
def digitsVal (l : List Nat) : Nat := l.foldl (fun a c => a * 10 + (c - 48)) 0

/-- Embedding of `pd.to_numeric(x, errors="coerce")` on one cell, for
plain decimal literals: optional surrounding whitespace, optional sign,
digits with at most one decimal point; anything else coerces to `none`
(which `fillna(0)` then turns into 0). -/
def parseNum (s : List Nat) : Option ℚ :=
  let t := stripL s
  let core := match t with
    | 45 :: rest => some (true, rest)
    | 43 :: rest => some (false, rest)
    | _ => some (false, t)
  match core with
  | none => none
  | some (neg, t1) =>
    let ip := t1.takeWhile isDigitCode
    let rest := t1.dropWhile isDigitCode
    let build : List Nat → List Nat → Option ℚ := fun ipart fpart =>
      if ipart = [] ∧ fpart = [] then none
      else
        let v : ℚ := (digitsVal ipart : ℚ) + (digitsVal fpart : ℚ) / ((10 : ℚ) ^ fpart.length)
        some (if neg then -v else v)
    match rest with
    | [] => build ip []
    | 46 :: frac => if frac.all isDigitCode then build ip frac else none
    | _ => none

/-- Leap-year test (Gregorian). -/
def isLeap (y : ℤ) : Bool := (y % 4 == 0 && !(y % 100 == 0)) || y % 400 == 0

/-- Number of days in a month. -/
def daysInMonth (y m : ℤ) : ℤ :=
  if m == 2 then (if isLeap y then 29 else 28)
  else if m == 4 || m == 6 || m == 9 || m == 11 then 30 else 31

/-- Days since 1970-01-01 of a civil date (standard era decomposition). -/
def daysFromCivil (y m d : ℤ) : ℤ :=
  let y1 := if m ≤ 2 then y - 1 else y
  let era := Int.fdiv y1 400
  let yoe := y1 - era * 400
  let mp := if 2 < m then m - 3 else m + 9
  let doy := (153 * mp + 2) / 5 + d - 1
  let doe := yoe * 365 + yoe / 4 - yoe / 100 + doy
  era * 146097 + doe - 719468

/-- Embedding of `pd.to_datetime(x, errors="coerce")` on one cell for
ISO `YYYY-MM-DD` dates; other shapes coerce to `NaT` (`none`). -/
def parseDate (s : List Nat) : Option ℤ :=
  match s with
  | [a, b, c, d, 45, e, f, 45, g, h] =>
    if [a, b, c, d, e, f, g, h].all isDigitCode then
      let y : ℤ := digitsVal [a, b, c, d]
      let m : ℤ := digitsVal [e, f]
      let dd : ℤ := digitsVal [g, h]
      if 1 ≤ m ∧ m ≤ 12 ∧ 1 ≤ dd ∧ dd ≤ daysInMonth y m then
        some (daysFromCivil y m dd)
      else none
    else none
  | _ => none

/-- Truncation toward zero, embedding pandas `astype(int)` on a float. -/
def truncQ (q : ℚ) : ℤ := Int.tdiv q.num (q.den : ℤ)

/-! ### Raw tabular datasets

A raw dataframe as fetched from a feed: named columns and rows of cells
by position; `none` is a missing value (`NaN`).  Cell access resolves a
column name to the first matching column. -/

structure RawTable where
  cols : List (List Nat)
  rows : List (List (Option (List Nat)))
  deriving DecidableEq, Repr

/-- Cell of a row under a named column (`none` if the column is absent
or the cell is missing). -/
def cellAt (cols : List (List Nat)) (row : List (Option (List Nat)))
    (c : List Nat) : Option (List Nat) :=
  match cols.findIdx? (fun x => x == c) with
  | none => none
  | some i => row.getD i none

/-- Embedding of pandas `astype(str)` on one cell: a missing value
stringifies to "nan". -/
def astypeStr (o : Option (List Nat)) : List Nat := o.getD (codes ("nan"))

/-- Embedding of `_numcol` (`etl.py` lines 58-62) applied to one row:
use the first column present among the accepted aliases, coercing the
cell with `to_numeric(errors="coerce").fillna(0)`; all zero when no
alias is present. -/
def numAt (cols : List (List Nat)) (row : List (Option (List Nat)))
    (names : List (List Nat)) : ℚ :=
  match names.find? (fun n => cols.contains n) with
  | none => 0
  | some c => ((cellAt cols row c).bind parseNum).getD 0

/-- Embedding of `ensure_str_col` (`etl.py` lines 48-56) applied to one
row: empty string when the column is absent or the cell missing. -/
def strAt (cols : List (List Nat)) (row : List (Option (List Nat)))
    (c : List Nat) : List Nat :=
  if cols.contains c then (cellAt cols row c).getD [] else []

/-- Header cleanup of `etl.py` line 170: strip whitespace, then delete
double quotes. -/
def stripHdr (c : List Nat) : List Nat := (stripL c).filter (fun n => !(n == 34))

/-- Apply the header cleanup to a table. -/
def stripHdrs (t : RawTable) : RawTable := { t with cols := t.cols.map stripHdr }

/-- Embedding of `_find_teil_column` (`etl.py` lines 34-38): first
column whose lowercased name contains "teil". -/
def findTeilCol (cols : List (List Nat)) : Option (List Nat) :=
  cols.find? (fun c => hasSubL (codes ("teil")) (c.map lowerCode))

/-- Column name "Anzahl". -/
def colAnzahl : List Nat := codes ("Anzahl")

/-- Column name "Teil". -/
def colTeil : List Nat := codes ("Teil")

/-- Embedding of the repair pattern of `_fix_stock` (`etl.py` line 84),
the regex `^"?\s*([^,;]+)\s*[,;]\s*"?([\d\.]+)"?.*$`: an optional quote,
optional whitespace, a non-empty run without `,`/`;` (greedy, so it
keeps trailing spaces), a separator, optional whitespace, an optional
quote and a non-empty run of digits and dots; the rest is ignored.
Returns the two capture groups, or `none` when the row does not match. -/
def matchStockPat (s : List Nat) : Option (List Nat × List Nat) :=
  let t := match s with | 34 :: rest => rest | _ => s
  let t1 := t.dropWhile isSpaceCode
  let g1 := t1.takeWhile (fun c => !(c == 44 || c == 59))
  let t2 := t1.dropWhile (fun c => !(c == 44 || c == 59))
  if g1 = [] then none
  else
    match t2 with
    | [] => none
    | _ :: t3 =>
      let t4 := t3.dropWhile isSpaceCode
      let t5 := match t4 with | 34 :: rest => rest | _ => t4
      let g2 := t5.takeWhile (fun c => isDigitCode c || c == 46)
      if g2 = [] then none else some (g1, g2)

/-- Embedding of `_fix_stock` (`etl.py` lines 78-89).  If a usable
`Anzahl` column exists the table passes through (line 186 later coerces
it).  A one-column table is rebuilt by pattern extraction (BOM removal
and strip first, line 83); rows that do not match yield missing values
in both columns.  Otherwise line 88 creates or overwrites `Anzahl` with
coerced values; since the following coercion at line 186 re-parses the
same data, cells are kept textual here: an all-missing or absent column
becomes the constant "0". -/
def fixStock (t : RawTable) : RawTable :=
  if t.cols.contains colAnzahl &&
      t.rows.any (fun r => (cellAt t.cols r colAnzahl).isSome) then t
  else if t.cols.length == 1 then
    { cols := [colTeil, colAnzahl]
      rows := t.rows.map (fun r =>
        match matchStockPat
            (stripL ((astypeStr (r.getD 0 none)).filter (fun c => !(c == 65279)))) with
        | some g => [some g.1, some g.2]
        | none => [none, none]) }
  else if t.cols.contains colAnzahl then
    { t with rows := t.rows.map (fun r =>
        match t.cols.findIdx? (fun x => x == colAnzahl) with
        | some i => r.set i (some (codes ("0")))
        | none => r) }
  else
    { cols := t.cols ++ [colAnzahl]
      rows := t.rows.map (fun r => r ++ [some (codes ("0"))]) }

/-- Alias lists of `_prepare_frames` (`etl.py` lines 180-186). -/
def wbzAliases : List (List Nat) := [codes ("WBZ"), codes ("wbz"), codes ("wbz_tage")]

/-- Aliases for the supply quantity column. -/
def deckungAliases : List (List Nat) :=
  [codes ("Deckungsmenge"), codes ("Deckungmenge"), codes ("Deckung_Menge")]

/-- Aliases for the demand quantity column. -/
def bedarfAliases : List (List Nat) :=
  [codes ("Bedarfsmenge"), codes ("Bedarfmenge"), codes ("Bedarf_Menge")]

/-- Aliases for the stock quantity column. -/
def stockAliases : List (List Nat) :=
  [codes ("Anzahl"), codes ("Bestand"), codes ("Bestand (Heute)")]

/-- Lead-time table keyed by normalized part (embeds `_normalize_parts`
plus `etl.py` lines 180 and 198): pairs of `Teil_norm` and the
truncated integer day count; empty when no part column exists, in which
case `fetch_data` uses an empty map. -/
def prepWbz (t : RawTable) : List (List Nat × ℤ) :=
  match findTeilCol t.cols with
  | none => []
  | some c => t.rows.map (fun r =>
      (cleanPart (astypeStr (cellAt t.cols r c)),
       truncQ (numAt t.cols r wbzAliases)))

/-- Stock table keyed by normalized part (embeds `_normalize_parts`
plus `etl.py` lines 186 and 199). -/
def prepStock (t : RawTable) : List (List Nat × ℚ) :=
  match findTeilCol t.cols with
  | none => []
  | some c => t.rows.map (fun r =>
      (cleanPart (astypeStr (cellAt t.cols r c)),
       numAt t.cols r stockAliases))

/-- Prepared transaction rows (embeds `_normalize_parts` and
`_prepare_frames` lines 182-189 for the dispo table), given the located
part column `c`. -/
def mkDispoRows (t : RawTable) (c : List Nat) : List DispoRow :=
  t.rows.map (fun r =>
    { teil := astypeStr (cellAt t.cols r c)
      teilNorm := cleanPart (astypeStr (cellAt t.cols r c))
      termin := (cellAt t.cols r (codes ("Termin"))).bind parseDate
      deckung := numAt t.cols r deckungAliases
      bedarf := numAt t.cols r bedarfAliases
      herkunftsbelegart := strAt t.cols r (codes ("Herkunftsbelegart"))
      hba := strAt t.cols r (codes ("HBA"))
      beleginfo := strAt t.cols r (codes ("Beleginfo"))
      kommNr := strAt t.cols r (codes ("KommNr")) })

/-- Embedding of `set_index(key)[col].to_dict()` lookup: the last row
with the key wins, `none` when absent. -/
def dictGet {α : Type} (m : List (List Nat × α)) (k : List Nat) : Option α :=
  (m.reverse.find? (fun p => p.1 == k)).map (fun p => p.2)

/-- The set of parts of `etl.py` line 201: normalized keys present in
the transaction log, the stock map or the lead-time map (deduplicated;
iteration order of a Python set is unspecified, so results are compared
up to this fixed enumeration). -/
def partsUnion (dispo : List DispoRow) (stockKeys wbzKeys : List (List Nat)) :
    List (List Nat) :=
  ((dispo.map (fun r => r.teilNorm)) ++ stockKeys ++ wbzKeys).dedup

/-- Embedding of the result loop of `fetch_data` (`etl.py` lines
197-207) over prepared inputs: one `compute_for_part` call per part in
the union, with stock and lead-time defaulting to 0 for absent keys. -/
def fetchDataResults (wbzTbl : List (List Nat × ℤ)) (stockTbl : List (List Nat × ℚ))
    (dispo : List DispoRow) (today : ℤ) : List PartResult :=
  (partsUnion dispo (stockTbl.map (fun p => p.1)) (wbzTbl.map (fun p => p.1))).map
    (fun part =>
      compute_for_part part (dispo.filter (fun r => r.teilNorm == part))
        ((dictGet wbzTbl part).getD 0)
        ((dictGet stockTbl part).getD 0) today)

/-- Failures of the pipeline as seen by the caller: the `HTTPException`
of `etl.py` line 164 (status and detail), or the uncaught `KeyError`
raised at line 201 when the transaction table has no part column (so no
`Teil_norm` key was created). -/
inductive PipeErr where
  | keyErr : PipeErr
  | http : Nat → List Nat → PipeErr
  deriving DecidableEq, Repr

/-- Embedding of the frame-level pipeline (`etl.py` lines 168-172,
`_prepare_frames` and `fetch_data`): repair the stock table, clean the
headers of all three tables, locate part columns and compute.  The only
local failure is the `KeyError` for a missing transaction part column;
every other defect degrades to defaults. -/
def pipelineFrames (w d s : RawTable) (today : ℤ) : Except Unit (List PartResult) :=
  let s1 := stripHdrs (fixStock s)
  let w1 := stripHdrs w
  let d1 := stripHdrs d
  match findTeilCol d1.cols with
  | none => Except.error ()
  | some c =>
      Except.ok (fetchDataResults (prepWbz w1) (prepStock s1) (mkDispoRows d1 c) today)

/-- Embedding of `_fetch_sources` remote mode (`etl.py` lines 158-167)
composed with the rest of `fetch_data`: each feed either yields a table
or fails with a transport/status error message; the first failure is
re-raised as an HTTP 502 and nothing is computed. -/
def pipelineRemote (r1 r2 r3 : Except (List Nat) RawTable) (today : ℤ) :
    Except PipeErr (List PartResult) :=
  match r1 with
  | Except.error e => Except.error (PipeErr.http 502 e)
  | Except.ok w =>
    match r2 with
    | Except.error e => Except.error (PipeErr.http 502 e)
    | Except.ok d =>
      match r3 with
      | Except.error e => Except.error (PipeErr.http 502 e)
      | Except.ok s =>
        match pipelineFrames w d s today with
        | Except.error _ => Except.error PipeErr.keyErr
        | Except.ok res => Except.ok res

/-- Detail message of the first failing feed (spec-side expression used
to state the error propagation). -/
def firstErr (r1 r2 r3 : Except (List Nat) RawTable) : List Nat :=
  match r1 with
  | Except.error e => e
  | Except.ok _ =>
    match r2 with
    | Except.error e => e
    | Except.ok _ => match r3 with | Except.error e => e | Except.ok _ => []

/-! ### Spec-modelled classification policies (claim C3)

Modelled from the spec: no classification code exists under `src/`; the
spec describes two deployment policies, (a) supply counted only on rows
whose sub-reference starts with one of a reserved pair of transfer-in
prefixes or whose commission number starts with a planned-order prefix,
and (b) supply counted only on rows flagged stock-relevant by a
sub-reference prefix.  The concrete prefixes are not given, so they are
existentially quantified (non-empty, as prefixes denoting a code). -/

/-- Policy (a) supply flag, for transfer-in sub-reference prefixes
`p1`, `p2` and planned-order commission prefix `q`. -/
def policyA (p1 p2 q : List Nat) (r : DispoRow) : Bool :=
  startsL p1 r.herkunftsbelegart || startsL p2 r.herkunftsbelegart ||
    startsL q r.kommNr

/-- Policy (b) supply flag, for a stock-relevant sub-reference prefix. -/
def policyB (rel : List Nat) (r : DispoRow) : Bool :=
  startsL rel r.herkunftsbelegart

/-- Supply sum gated by a classification flag, as the spec's step 4
would compute it over the window-passing rows. -/
def gatedCover (flag : DispoRow → Bool) (grp : List DispoRow)
    (wbz_days today : ℤ) : ℚ :=
  (((grp.filter (inWin (calc_wbz_end grp wbz_days today))).filter flag).map
    (fun r => r.deckung)).sum

/-- Claim C3 as a proposition: some configured policy (one of the two
spec variants, with non-empty prefixes) explains the supply sums the
code computes, on every input. -/
def claimC3 : Prop :=
  ∃ (useA : Bool) (p1 p2 q rel : List Nat),
    p1 ≠ [] ∧ p2 ≠ [] ∧ q ≠ [] ∧ rel ≠ [] ∧
    ∀ (tn : List Nat) (grp : List DispoRow) (days : ℤ) (stock : ℚ) (today : ℤ),
      (compute_for_part tn grp days stock today).zugaengeWbz =
        gatedCover (if useA then policyA p1 p2 q else policyB rel) grp days today

/-! ### Noise relation on raw identifiers (claim C6)

Two raw identifiers related by these generators differ only in inserted
CR/LF/TAB, quote, no-break-space or BOM characters, whitespace at the
ends, or letter case. -/

/-- One noise edit on a raw identifier. -/
inductive NoiseStep : List Nat → List Nat → Prop where
  | insertNoise (u v : List Nat) (c : Nat) (h : isNoiseCode c = true) :
      NoiseStep (u ++ v) (u ++ c :: v)
  | leadWs (s : List Nat) (c : Nat) (h : isSpaceCode c = true) :
      NoiseStep s (c :: s)
  | trailWs (s : List Nat) (c : Nat) (h : isSpaceCode c = true) :
      NoiseStep s (s ++ [c])
  | caseChange (u v : List Nat) (a b : Nat) (h : lowerCode a = lowerCode b) :
      NoiseStep (u ++ a :: v) (u ++ b :: v)

/-- Differing only in noise: the equivalence closure of single edits. -/
inductive NoiseEq : List Nat → List Nat → Prop where
  | refl (s : List Nat) : NoiseEq s s
  | step {s t : List Nat} : NoiseStep s t → NoiseEq s t
  | symm {s t : List Nat} : NoiseEq s t → NoiseEq t s
  | trans {s t u : List Nat} : NoiseEq s t → NoiseEq t u → NoiseEq s u

/-! ### Concrete inputs for witnesses and counterexamples -/

/-- A transaction row of part "X", commission "K1": demand 10 due on
day 4 (Monday 1970-01-05). -/
def rowDemandK1 : DispoRow :=
  { teil := codes ("X")
    teilNorm := codes ("x")
    termin := some 4
    deckung := 0
    bedarf := 10
    herkunftsbelegart := []
    hba := []
    beleginfo := []
    kommNr := codes ("K1") }

/-- The matching supply row of commission "K1", which also carries the
lead-time override marker dated day 4. -/
def rowSupplyK1 : DispoRow :=
  { rowDemandK1 with deckung := 10, bedarf := 0, beleginfo := codes ("WBZ DisB") }

/-- An unrelated demand row dated day 7 (inside the default five-day
window, outside the overridden one). -/
def rowLater : DispoRow :=
  { rowDemandK1 with termin := some 7, bedarf := 5, kommNr := [] }

/-- A supply row with all classification fields blank. -/
def rowBlank : DispoRow :=
  { teil := codes ("X")
    teilNorm := codes ("x")
    termin := some 4
    deckung := 5
    bedarf := 0
    herkunftsbelegart := []
    hba := []
    beleginfo := []
    kommNr := [] }

/-- A lead-time table with one part. -/
def tblW0 : RawTable :=
  { cols := [codes ("Teil"), codes ("WBZ")]
    rows := [[some (codes ("P1")), some (codes ("5"))]] }

/-- A transaction table without any part-identifier column. -/
def tblDNoTeil : RawTable :=
  { cols := [codes ("Datum")], rows := [[some (codes ("x"))]] }

/-- A well-formed stock table. -/
def tblS0 : RawTable :=
  { cols := [codes ("Teil"), codes ("Anzahl")]
    rows := [[some (codes ("P1")), some (codes ("7"))]] }

/-- An empty transaction table that does have a part column. -/
def tblDEmpty : RawTable := { cols := [codes ("Teil")], rows := [] }

/-- An empty lead-time table. -/
def tblWEmpty : RawTable := { cols := [codes ("Teil"), codes ("WBZ")], rows := [] }

/-- The malformed single-column stock feed of claim C10: one row that
does not match the repair pattern and one that does. -/
def tblStockBad : RawTable :=
  { cols := [codes ("Bestandsliste")]
    rows := [[some (codes ("P2,notanumber"))], [some (codes ("P1,5"))]] }

/-- The full run over the malformed stock feed. -/
def c10Run : Except Unit (List PartResult) :=
  pipelineFrames tblWEmpty tblDEmpty tblStockBad 4

/-- Expected result record for the key "nan" produced by the
non-matching malformed stock row. -/
def resNan : PartResult :=
  { teil := codes ("nan")
    bestandHeute := 0
    zugaengeWbz := 0
    verbraeucheWbz := 0
    heuteFrei := 0
    wbzEnde := some 4 }

/-- Expected result record for part "p1" of the malformed stock feed. -/
def resP1 : PartResult :=
  { teil := codes ("p1")
    bestandHeute := 5
    zugaengeWbz := 0
    verbraeucheWbz := 0
    heuteFrei := 5
    wbzEnde := some 4 }

end Bestand

namespace Bestand

/-! ## Helper lemmas -/

theorem isBusday_true_iff (d : ℤ) :
    isBusday d = true ↔ d % 7 ≠ 2 ∧ d % 7 ≠ 3 := by
  simp [isBusday, not_or]

theorem isBusday_rollF (d : ℤ) : isBusday (rollF d) = true := by
  unfold rollF
  by_cases h1 : isBusday d = true
  · rw [if_pos h1]; exact h1
  · by_cases h2 : isBusday (d + 1) = true
    · rw [if_neg h1, if_pos h2]; exact h2
    · rw [if_neg h1, if_neg h2]
      rw [isBusday_true_iff] at h1 h2 ⊢
      omega

theorem rollF_ge (d : ℤ) : d ≤ rollF d := by
  unfold rollF
  split
  · omega
  · split <;> omega

theorem iterF_ge (n : Nat) : ∀ d : ℤ, d ≤ iterF d n := by
  induction n with
  | zero => intro d; simp [iterF]
  | succ n ih =>
      intro d
      have h1 : d ≤ stepF d := by
        have hr := rollF_ge (d + 1)
        simp only [stepF]
        omega
      have h2 : stepF d ≤ iterF (stepF d) n := ih (stepF d)
      have h3 : iterF d (n + 1) = iterF (stepF d) n := rfl
      rw [h3]
      omega

theorem isBusday_iterF (n : Nat) :
    ∀ d : ℤ, isBusday d = true → isBusday (iterF d n) = true := by
  induction n with
  | zero => intro d h; simpa [iterF] using h
  | succ n ih =>
      intro d h
      simp only [iterF]
      exact ih _ (isBusday_rollF (d + 1))

theorem busday_add_isBusday (t days : ℤ) (h : 0 ≤ days) :
    isBusday (busday_add t days) = true := by
  simp only [busday_add, if_pos h]
  exact isBusday_iterF _ _ (isBusday_rollF t)

theorem busday_add_ge (t days : ℤ) (h : 0 ≤ days) : t ≤ busday_add t days := by
  simp only [busday_add, if_pos h]
  have h1 := rollF_ge t
  have h2 := iterF_ge days.toNat (rollF t)
  omega

/-- C1: for every part, the returned available-today value equals the
stock field minus the demand-sum field plus the supply-sum field of the
same result record, with exact arithmetic. -/
theorem C1_available_today_identity (tn : List Nat) (grp : List DispoRow)
    (days : ℤ) (stock : ℚ) (today : ℤ) :
    (compute_for_part tn grp days stock today).heuteFrei =
      (compute_for_part tn grp days stock today).bestandHeute
        - (compute_for_part tn grp days stock today).verbraeucheWbz
        + (compute_for_part tn grp days stock today).zugaengeWbz := by
  simp only [compute_for_part]
  ring

/-- C5: for a part with no override row, the window end is today
advanced by `wbz_days` business days (a Mon-Fri day, not before today,
for non-negative day counts), and a row enters the aggregation exactly
when its date is present and on or before that end date. -/
theorem C5_default_window_rule (grp : List DispoRow) (days today : ℤ)
    (hno : grp.filter (fun r => hasSubCI r.beleginfo markerWbz) = []) :
    calc_wbz_end grp days today = some (busday_add today days) ∧
    (∀ r : DispoRow,
        r ∈ grp.filter (inWin (calc_wbz_end grp days today)) ↔
          r ∈ grp ∧ ∃ t : ℤ, r.termin = some t ∧ t ≤ busday_add today days) ∧
    (0 ≤ days → isBusday (busday_add today days) = true) ∧
    (0 ≤ days → today ≤ busday_add today days) := by
  have he : calc_wbz_end grp days today = some (busday_add today days) := by
    unfold calc_wbz_end
    rw [hno]
  refine ⟨he, ?_, fun h => busday_add_isBusday _ _ h, fun h => busday_add_ge _ _ h⟩
  intro r
  rw [he]
  simp only [List.mem_filter, and_congr_right_iff]
  intro _
  cases hr : r.termin with
  | none => simp [inWin, hr]
  | some t => simp [inWin, hr]

theorem C5_witness :
    calc_wbz_end [rowLater] 5 4 = some (busday_add 4 5) ∧
    (∀ r : DispoRow,
        r ∈ [rowLater].filter (inWin (calc_wbz_end [rowLater] 5 4)) ↔
          r ∈ [rowLater] ∧ ∃ t : ℤ, r.termin = some t ∧ t ≤ busday_add 4 5) ∧
    ((0 : ℤ) ≤ 5 → isBusday (busday_add 4 5) = true) ∧
    ((0 : ℤ) ≤ 5 → (4 : ℤ) ≤ busday_add 4 5) :=
  C5_default_window_rule [rowLater] 5 4 (by decide)

/-- C4: when some transaction row's booking info contains the
lead-time-document marker (case-insensitively), the window end is the
date field of the preferred matching row (one that also carries the
sub-variant marker when such a row exists, otherwise the first matching
row in source order) and the configured day count is ignored. -/
theorem C4_override_end_date (grp : List DispoRow) (days today : ℤ)
    (hov : grp.filter (fun r => hasSubCI r.beleginfo markerWbz) ≠ []) :
    ∃ r : DispoRow,
      r ∈ grp ∧ hasSubCI r.beleginfo markerWbz = true ∧
      calc_wbz_end grp days today = r.termin ∧
      (∀ d' : ℤ, calc_wbz_end grp d' today = r.termin) ∧
      (if ((grp.filter (fun x => hasSubCI x.beleginfo markerWbz)).filter
            (fun x => hasSubCI x.beleginfo markerDisb0)) = [] then
        (grp.filter (fun x => hasSubCI x.beleginfo markerWbz)).head? = some r
      else
        ((grp.filter (fun x => hasSubCI x.beleginfo markerWbz)).filter
            (fun x => hasSubCI x.beleginfo markerDisb0)).head? = some r) := by
  cases hms : grp.filter (fun r => hasSubCI r.beleginfo markerWbz) with
  | nil => exact absurd hms hov
  | cons w ws =>
      have hend : ∀ d' : ℤ, calc_wbz_end grp d' today =
          match (w :: ws).filter (fun r => hasSubCI r.beleginfo markerDisb0) with
          | [] => w.termin
          | p :: _ => p.termin := by
        intro d'
        unfold calc_wbz_end
        rw [hms]
      cases hp : (w :: ws).filter (fun r => hasSubCI r.beleginfo markerDisb0) with
      | nil =>
          refine ⟨w, ?_, ?_, ?_, ?_, ?_⟩
          · have : w ∈ grp.filter (fun r => hasSubCI r.beleginfo markerWbz) := by
              rw [hms]; exact List.mem_cons_self w ws
            exact (List.mem_filter.mp this).1
          · have : w ∈ grp.filter (fun r => hasSubCI r.beleginfo markerWbz) := by
              rw [hms]; exact List.mem_cons_self w ws
            exact (List.mem_filter.mp this).2
          · rw [hend days, hp]
          · intro d'; rw [hend d', hp]
          · simp
      | cons p ps =>
          have hpm : p ∈ (w :: ws).filter (fun r => hasSubCI r.beleginfo markerDisb0) := by
            rw [hp]; exact List.mem_cons_self p ps
          have hpw : p ∈ grp.filter (fun r => hasSubCI r.beleginfo markerWbz) := by
            rw [hms]; exact (List.mem_filter.mp hpm).1
          refine ⟨p, (List.mem_filter.mp hpw).1, (List.mem_filter.mp hpw).2, ?_, ?_, ?_⟩
          · rw [hend days, hp]
          · intro d'; rw [hend d', hp]
          · simp

theorem C4_witness :
    ∃ r : DispoRow,
      r ∈ [rowDemandK1, rowSupplyK1] ∧ hasSubCI r.beleginfo markerWbz = true ∧
      calc_wbz_end [rowDemandK1, rowSupplyK1] 5 4 = r.termin ∧
      (∀ d' : ℤ, calc_wbz_end [rowDemandK1, rowSupplyK1] d' 4 = r.termin) ∧
      (if (([rowDemandK1, rowSupplyK1].filter (fun x => hasSubCI x.beleginfo markerWbz)).filter
            (fun x => hasSubCI x.beleginfo markerDisb0)) = [] then
        ([rowDemandK1, rowSupplyK1].filter (fun x => hasSubCI x.beleginfo markerWbz)).head? = some r
      else
        (([rowDemandK1, rowSupplyK1].filter (fun x => hasSubCI x.beleginfo markerWbz)).filter
            (fun x => hasSubCI x.beleginfo markerDisb0)).head? = some r) :=
  C4_override_end_date [rowDemandK1, rowSupplyK1] 5 4 (by decide)

end Bestand

namespace Bestand

theorem sum_split (l : List DispoRow) (p : DispoRow → Bool) (f : DispoRow → ℚ) :
    ((l.filter p).map f).sum + ((l.filter (fun x => !(p x))).map f).sum =
      (l.map f).sum := by
  induction l with
  | nil => simp
  | cons a l ih =>
      rcases Bool.eq_false_or_eq_true (p a) with h | h <;>
        simp [List.filter_cons, h] <;> linarith [ih]

theorem filter_swap (l : List DispoRow) (p q : DispoRow → Bool) :
    (l.filter q).filter p = (l.filter p).filter q := by
  induction l with
  | nil => simp
  | cons a l ih =>
      by_cases hp : p a = true <;> by_cases hq : q a = true <;>
        simp [List.filter_cons, hp, hq, ih]

/-- C2 (amended): removing a commission-number group whose in-window
demand and supply sums are equal and positive does not change the
available-today figure, provided the resolved window end is unchanged
by the removal (in particular whenever no row of the group carries the
lead-time override marker in its booking info). -/
theorem C2_pairing_group_cancels (tn k : List Nat) (grp : List DispoRow)
    (days today : ℤ) (stock : ℚ)
    (hE : calc_wbz_end (grp.filter (fun r => !(r.kommNr == k))) days today =
          calc_wbz_end grp days today)
    (hEq : (((grp.filter (fun r => r.kommNr == k)).filter
              (inWin (calc_wbz_end grp days today))).map (fun r => r.bedarf)).sum =
           (((grp.filter (fun r => r.kommNr == k)).filter
              (inWin (calc_wbz_end grp days today))).map (fun r => r.deckung)).sum)
    (hPos : 0 < (((grp.filter (fun r => r.kommNr == k)).filter
              (inWin (calc_wbz_end grp days today))).map (fun r => r.bedarf)).sum) :
    (compute_for_part tn (grp.filter (fun r => !(r.kommNr == k))) days stock today).heuteFrei
      = (compute_for_part tn grp days stock today).heuteFrei := by
  simp only [compute_for_part, hE]
  have hc := sum_split (grp.filter (inWin (calc_wbz_end grp days today)))
    (fun r => r.kommNr == k) (fun r => r.deckung)
  have hb := sum_split (grp.filter (inWin (calc_wbz_end grp days today)))
    (fun r => r.kommNr == k) (fun r => r.bedarf)
  rw [← filter_swap grp (fun r => r.kommNr == k) (inWin (calc_wbz_end grp days today))] at hEq
  rw [← filter_swap grp (fun r => !(r.kommNr == k)) (inWin (calc_wbz_end grp days today))]
  linarith

/-- C2 fails as stated: this commission group satisfies the premise
(in-window demand sum = supply sum = 10 > 0), yet dropping the group
changes available-today, because one group row carries the lead-time
override marker and its removal widens the window. -/
theorem C2_counterexample :
    ((([rowDemandK1, rowSupplyK1, rowLater].filter (fun r => r.kommNr == codes ("K1"))).filter
        (inWin (calc_wbz_end [rowDemandK1, rowSupplyK1, rowLater] 5 4))).map
        (fun r => r.bedarf)).sum = 10 ∧
    ((([rowDemandK1, rowSupplyK1, rowLater].filter (fun r => r.kommNr == codes ("K1"))).filter
        (inWin (calc_wbz_end [rowDemandK1, rowSupplyK1, rowLater] 5 4))).map
        (fun r => r.deckung)).sum = 10 ∧
    (0 : ℚ) < 10 ∧
    (compute_for_part (codes ("x"))
        ([rowDemandK1, rowSupplyK1, rowLater].filter (fun r => !(r.kommNr == codes ("K1"))))
        5 0 4).heuteFrei ≠
      (compute_for_part (codes ("x")) [rowDemandK1, rowSupplyK1, rowLater] 5 0 4).heuteFrei := by
  have hend : calc_wbz_end [rowDemandK1, rowSupplyK1, rowLater] 5 4 = some 4 := by decide
  have hrest : [rowDemandK1, rowSupplyK1, rowLater].filter
      (fun r => !(r.kommNr == codes ("K1"))) = [rowLater] := by decide
  have hgrp : [rowDemandK1, rowSupplyK1, rowLater].filter
      (fun r => r.kommNr == codes ("K1")) = [rowDemandK1, rowSupplyK1] := by decide
  have hend2 : calc_wbz_end [rowLater] 5 4 = some 11 := by decide
  refine ⟨?_, ?_, by norm_num, ?_⟩
  · rw [hgrp, hend]
    have : [rowDemandK1, rowSupplyK1].filter (inWin (some 4)) =
        [rowDemandK1, rowSupplyK1] := by decide
    rw [this]
    norm_num [rowDemandK1, rowSupplyK1]
  · rw [hgrp, hend]
    have : [rowDemandK1, rowSupplyK1].filter (inWin (some 4)) =
        [rowDemandK1, rowSupplyK1] := by decide
    rw [this]
    norm_num [rowDemandK1, rowSupplyK1]
  · rw [hrest]
    simp only [compute_for_part, hend, hend2]
    have h1 : [rowLater].filter (inWin (some 11)) = [rowLater] := by decide
    have h2 : [rowDemandK1, rowSupplyK1, rowLater].filter (inWin (some 4)) =
        [rowDemandK1, rowSupplyK1] := by decide
    rw [h1, h2]
    norm_num [rowDemandK1, rowSupplyK1, rowLater]

theorem C2_witness :
    (compute_for_part (codes ("x"))
        ([rowDemandK1, rowSupplyK1].filter (fun r => !(r.kommNr == codes ("K1"))))
        0 7 4).heuteFrei =
      (compute_for_part (codes ("x")) [rowDemandK1, rowSupplyK1] 0 7 4).heuteFrei := by
  refine C2_pairing_group_cancels (codes ("x")) (codes ("K1")) [rowDemandK1, rowSupplyK1]
    0 4 7 (by decide) ?_ ?_
  · have hgrp : [rowDemandK1, rowSupplyK1].filter (fun r => r.kommNr == codes ("K1")) =
        [rowDemandK1, rowSupplyK1] := by decide
    have hend : calc_wbz_end [rowDemandK1, rowSupplyK1] 0 4 = some 4 := by decide
    rw [hgrp, hend]
    have : [rowDemandK1, rowSupplyK1].filter (inWin (some 4)) =
        [rowDemandK1, rowSupplyK1] := by decide
    rw [this]
    norm_num [rowDemandK1, rowSupplyK1]
  · have hgrp : [rowDemandK1, rowSupplyK1].filter (fun r => r.kommNr == codes ("K1")) =
        [rowDemandK1, rowSupplyK1] := by decide
    have hend : calc_wbz_end [rowDemandK1, rowSupplyK1] 0 4 = some 4 := by decide
    rw [hgrp, hend]
    have : [rowDemandK1, rowSupplyK1].filter (inWin (some 4)) =
        [rowDemandK1, rowSupplyK1] := by decide
    rw [this]
    norm_num [rowDemandK1, rowSupplyK1]

end Bestand

namespace Bestand

theorem startsL_nil_of_ne (p : List Nat) (h : p ≠ []) : startsL p [] = false := by
  cases p with
  | nil => exact absurd rfl h
  | cons a l => rfl

theorem filter_map_comm (g : DispoRow → DispoRow) (p : DispoRow → Bool)
    (l : List DispoRow) (h : ∀ r, p (g r) = p r) :
    (l.map g).filter p = (l.filter p).map g := by
  induction l with
  | nil => simp
  | cons a l ih =>
      rcases Bool.eq_false_or_eq_true (p a) with hp | hp <;>
        simp [List.filter_cons, h a, hp, ih]

theorem calc_end_map (g : DispoRow → DispoRow) (grp : List DispoRow) (days today : ℤ)
    (hb : ∀ r, (g r).beleginfo = r.beleginfo) (ht : ∀ r, (g r).termin = r.termin) :
    calc_wbz_end (grp.map g) days today = calc_wbz_end grp days today := by
  unfold calc_wbz_end
  have h1 : (grp.map g).filter (fun r => hasSubCI r.beleginfo markerWbz)
      = (grp.filter (fun r => hasSubCI r.beleginfo markerWbz)).map g :=
    filter_map_comm _ _ _ (fun r => by rw [hb r])
  rw [h1]
  cases hms : grp.filter (fun r => hasSubCI r.beleginfo markerWbz) with
  | nil => simp
  | cons w ws =>
      simp only [List.map_cons]
      have h2 : (g w :: ws.map g).filter (fun r => hasSubCI r.beleginfo markerDisb0)
          = ((w :: ws).filter (fun r => hasSubCI r.beleginfo markerDisb0)).map g := by
        rw [← List.map_cons]
        exact filter_map_comm _ _ _ (fun r => by rw [hb r])
      rw [h2]
      cases hp : (w :: ws).filter (fun r => hasSubCI r.beleginfo markerDisb0) with
      | nil => simp [ht w]
      | cons p ps => simp [ht p]

/-- C3 fails as stated: no choice of policy (a) or (b) with concrete
non-empty prefixes reproduces the supply sums the code computes, because
the code counts supply on rows no prefix flag can match (all
classification fields blank). -/
theorem C3_counterexample : ¬ claimC3 := by
  rintro ⟨useA, p1, p2, q, rel, h1, h2, h3, h4, hall⟩
  have h5 := hall (codes ("x")) [rowBlank] 0 0 4
  have hwin : [rowBlank].filter (inWin (calc_wbz_end [rowBlank] 0 4)) = [rowBlank] := by
    decide
  have hL : (compute_for_part (codes ("x")) [rowBlank] 0 0 4).zugaengeWbz = 5 := by
    simp only [compute_for_part]
    rw [hwin]
    norm_num [rowBlank]
  have hflag : (if useA then policyA p1 p2 q else policyB rel) rowBlank = false := by
    have e1 : rowBlank.herkunftsbelegart = [] := rfl
    have e2 : rowBlank.kommNr = [] := rfl
    cases useA with
    | false =>
        have hred : (if (false : Bool) = true then policyA p1 p2 q else policyB rel)
            = policyB rel := by simp
        rw [hred]
        unfold policyB
        rw [e1, startsL_nil_of_ne rel h4]
    | true =>
        have hred : (if (true : Bool) = true then policyA p1 p2 q else policyB rel)
            = policyA p1 p2 q := by simp
        rw [hred]
        unfold policyA
        rw [e1, e2, startsL_nil_of_ne p1 h1, startsL_nil_of_ne p2 h2,
          startsL_nil_of_ne q h3]
        rfl
  have hR : gatedCover (if useA then policyA p1 p2 q else policyB rel) [rowBlank] 0 4 = 0 := by
    unfold gatedCover
    rw [hwin, List.filter_cons]
    rw [hflag]
    simp
  rw [hL, hR] at h5
  norm_num at h5

/-- C3 (amended): the aggregation applies no classification at all:
rewriting the sub-reference and commission fields of every row (or any
transformation preserving dates, quantities and booking info) leaves
the supply sum, the demand sum and the available-today figure
unchanged. -/
theorem C3_supply_unconditional (g : DispoRow → DispoRow) (tn : List Nat)
    (grp : List DispoRow) (days today : ℤ) (stock : ℚ)
    (hg : ∀ r : DispoRow, (g r).termin = r.termin ∧ (g r).deckung = r.deckung ∧
          (g r).bedarf = r.bedarf ∧ (g r).beleginfo = r.beleginfo) :
    (compute_for_part tn (grp.map g) days stock today).zugaengeWbz =
      (compute_for_part tn grp days stock today).zugaengeWbz ∧
    (compute_for_part tn (grp.map g) days stock today).verbraeucheWbz =
      (compute_for_part tn grp days stock today).verbraeucheWbz ∧
    (compute_for_part tn (grp.map g) days stock today).heuteFrei =
      (compute_for_part tn grp days stock today).heuteFrei := by
  have he := calc_end_map g grp days today (fun r => (hg r).2.2.2) (fun r => (hg r).1)
  have hw : (grp.map g).filter (inWin (calc_wbz_end grp days today))
      = (grp.filter (inWin (calc_wbz_end grp days today))).map g :=
    filter_map_comm _ _ _ (fun r => by unfold inWin; rw [(hg r).1])
  have hsum : ∀ f : DispoRow → ℚ, (∀ r, f (g r) = f r) →
      (((grp.filter (inWin (calc_wbz_end grp days today))).map g).map f).sum =
        ((grp.filter (inWin (calc_wbz_end grp days today))).map f).sum := by
    intro f hf
    rw [List.map_map]
    congr 1
    exact List.map_congr_left (fun a _ => hf a)
  simp only [compute_for_part, he, hw]
  refine ⟨hsum _ (fun r => (hg r).2.1), hsum _ (fun r => (hg r).2.2.1), ?_⟩
  rw [hsum _ (fun r => (hg r).2.1), hsum _ (fun r => (hg r).2.2.1)]

theorem C3_witness :
    (compute_for_part (codes ("x"))
        ([rowBlank, rowDemandK1].map (fun r =>
          { r with kommNr := [], herkunftsbelegart := codes ("ZZ"), hba := codes ("ZZ") }))
        0 3 4).zugaengeWbz =
      (compute_for_part (codes ("x")) [rowBlank, rowDemandK1] 0 3 4).zugaengeWbz ∧
    (compute_for_part (codes ("x"))
        ([rowBlank, rowDemandK1].map (fun r =>
          { r with kommNr := [], herkunftsbelegart := codes ("ZZ"), hba := codes ("ZZ") }))
        0 3 4).verbraeucheWbz =
      (compute_for_part (codes ("x")) [rowBlank, rowDemandK1] 0 3 4).verbraeucheWbz ∧
    (compute_for_part (codes ("x"))
        ([rowBlank, rowDemandK1].map (fun r =>
          { r with kommNr := [], herkunftsbelegart := codes ("ZZ"), hba := codes ("ZZ") }))
        0 3 4).heuteFrei =
      (compute_for_part (codes ("x")) [rowBlank, rowDemandK1] 0 3 4).heuteFrei :=
  C3_supply_unconditional _ (codes ("x")) [rowBlank, rowDemandK1] 0 4 3
    (fun r => ⟨rfl, rfl, rfl, rfl⟩)

end Bestand

namespace Bestand

theorem lower_pres_noise {a b : Nat} (h : lowerCode a = lowerCode b) :
    isNoiseCode a = isNoiseCode b := by
  unfold lowerCode at h
  cases hna : isNoiseCode a <;> cases hnb : isNoiseCode b <;> try rfl
  all_goals
    simp only [isNoiseCode, Bool.or_eq_true, beq_iff_eq, Bool.or_eq_false_iff,
      beq_eq_false_iff_ne, ne_eq] at hna hnb
  all_goals split at h <;> split at h <;> omega

theorem lower_pres_space {a b : Nat} (h : lowerCode a = lowerCode b) :
    isSpaceCode a = isSpaceCode b := by
  unfold lowerCode at h
  cases hna : isSpaceCode a <;> cases hnb : isSpaceCode b <;> try rfl
  all_goals
    simp only [isSpaceCode, Bool.or_eq_true, beq_iff_eq, Bool.or_eq_false_iff,
      beq_eq_false_iff_ne, ne_eq] at hna hnb
  all_goals split at h <;> split at h <;> omega

theorem dropTrail_append_space (l : List Nat) (c : Nat) (h : isSpaceCode c = true) :
    dropTrail (l ++ [c]) = dropTrail l := by
  unfold dropTrail
  rw [List.reverse_append]
  simp only [List.reverse_cons, List.reverse_nil, List.nil_append, List.singleton_append]
  rw [List.dropWhile_cons, if_pos h]

theorem stripL_cons_space (l : List Nat) (c : Nat) (h : isSpaceCode c = true) :
    stripL (c :: l) = stripL l := by
  unfold stripL
  rw [List.dropWhile_cons, if_pos h]

theorem stripL_append_space (l : List Nat) (c : Nat) (h : isSpaceCode c = true) :
    stripL (l ++ [c]) = stripL l := by
  unfold stripL
  rw [List.dropWhile_append]
  by_cases hdw : (l.dropWhile isSpaceCode).isEmpty = true
  · rw [if_pos hdw]
    rw [List.isEmpty_iff] at hdw
    rw [hdw]
    have : ([c] : List Nat).dropWhile isSpaceCode = [] := by
      rw [List.dropWhile_cons, if_pos h]
      rfl
    rw [this]
  · rw [if_neg hdw]
    exact dropTrail_append_space _ _ h

theorem forall2_low_refl (l : List Nat) :
    List.Forall₂ (fun a b => lowerCode a = lowerCode b) l l := by
  induction l with
  | nil => exact List.Forall₂.nil
  | cons a l ih => exact List.Forall₂.cons rfl ih

theorem forall2_low_mid (u v : List Nat) (a b : Nat) (h : lowerCode a = lowerCode b) :
    List.Forall₂ (fun x y => lowerCode x = lowerCode y) (u ++ a :: v) (u ++ b :: v) := by
  induction u with
  | nil => exact List.Forall₂.cons h (forall2_low_refl v)
  | cons x u ih => exact List.Forall₂.cons rfl ih

theorem forall2_low_dropWhile {l l' : List Nat}
    (h : List.Forall₂ (fun a b => lowerCode a = lowerCode b) l l') :
    List.Forall₂ (fun a b => lowerCode a = lowerCode b)
      (l.dropWhile isSpaceCode) (l'.dropWhile isSpaceCode) := by
  induction h with
  | nil => exact List.Forall₂.nil
  | @cons a b l1 l2 hab htail ih =>
      rw [List.dropWhile_cons, List.dropWhile_cons, lower_pres_space hab]
      by_cases hb : isSpaceCode b = true
      · rw [if_pos hb, if_pos hb]
        exact ih
      · rw [if_neg hb, if_neg hb]
        exact List.Forall₂.cons hab htail

theorem forall2_low_stripL {l l' : List Nat}
    (h : List.Forall₂ (fun a b => lowerCode a = lowerCode b) l l') :
    List.Forall₂ (fun a b => lowerCode a = lowerCode b) (stripL l) (stripL l') := by
  unfold stripL dropTrail
  exact List.rel_reverse (forall2_low_dropWhile (List.rel_reverse (forall2_low_dropWhile h)))

theorem forall2_low_map {l l' : List Nat}
    (h : List.Forall₂ (fun a b => lowerCode a = lowerCode b) l l') :
    l.map lowerCode = l'.map lowerCode := by
  induction h with
  | nil => rfl
  | cons hab _ ih => simp only [List.map_cons, hab, ih]

theorem cleanPart_noise_step {s t : List Nat} (h : NoiseStep s t) :
    cleanPart s = cleanPart t := by
  cases h with
  | insertNoise u v c hc =>
      unfold cleanPart
      simp only [List.filter_append, List.filter_cons, hc, Bool.not_true,
        Bool.false_eq_true, if_false]
  | leadWs s c hc =>
      unfold cleanPart
      by_cases hn : isNoiseCode c = true
      · simp only [List.filter_cons, hn, Bool.not_true, Bool.false_eq_true, if_false]
      · have hcf : isNoiseCode c = false := by
          cases hcc : isNoiseCode c
          · rfl
          · exact absurd hcc hn
        simp only [List.filter_cons, hcf, Bool.not_false, if_true]
        rw [stripL_cons_space _ _ hc]
  | trailWs s c hc =>
      unfold cleanPart
      by_cases hn : isNoiseCode c = true
      · simp only [List.filter_append, List.filter_cons, hn, Bool.not_true,
          Bool.false_eq_true, if_false, List.filter_nil, List.append_nil]
      · have hcf : isNoiseCode c = false := by
          cases hcc : isNoiseCode c
          · rfl
          · exact absurd hcc hn
        simp only [List.filter_append, List.filter_cons, hcf, Bool.not_false, if_true,
          List.filter_nil]
        rw [stripL_append_space _ _ hc]
  | caseChange u v a b hab =>
      have hn := lower_pres_noise hab
      unfold cleanPart
      by_cases hbn : isNoiseCode b = true
      · have han : isNoiseCode a = true := hn.trans hbn
        simp only [List.filter_append, List.filter_cons, han, hbn, Bool.not_true,
          Bool.false_eq_true, if_false]
      · have hbf : isNoiseCode b = false := by
          cases hcc : isNoiseCode b
          · rfl
          · exact absurd hcc hbn
        have haf : isNoiseCode a = false := hn.trans hbf
        simp only [List.filter_append, List.filter_cons, haf, hbf, Bool.not_false, if_true]
        exact forall2_low_map (forall2_low_stripL
          (forall2_low_mid (u.filter (fun c => !(isNoiseCode c)))
            (v.filter (fun c => !(isNoiseCode c))) a b hab))

/-- C6: the canonical-key normalization identifies any two raw
identifiers differing only in inserted CR/LF/TAB, quote, no-break-space
or byte-order-mark characters, whitespace at the ends, or letter case;
in particular "ABC123", " abc123\n", "﻿ABC123" and a quoted
"ABC123" all yield the same key. -/
theorem C6_normalization_invariant :
    (∀ s t : List Nat, NoiseEq s t → cleanPart s = cleanPart t) ∧
    cleanPart (codes (" abc123\n")) = cleanPart (codes ("ABC123")) ∧
    cleanPart (codes ("﻿ABC123")) = cleanPart (codes ("ABC123")) ∧
    cleanPart (codes ("\"ABC123\"")) = cleanPart (codes ("ABC123")) := by
  refine ⟨?_, by decide, by decide, by decide⟩
  intro s t h
  induction h with
  | refl s => rfl
  | step hs => exact cleanPart_noise_step hs
  | symm _ ih => exact ih.symm
  | trans _ _ ih1 ih2 => exact ih1.trans ih2

theorem C6_witness : cleanPart [65, 66] = cleanPart [65, 66, 9] :=
  C6_normalization_invariant.1 [65, 66] [65, 66, 9]
    (NoiseEq.step (NoiseStep.trailWs [65, 66] 9 (by decide)))

end Bestand

namespace Bestand

theorem dictGet_eq_none {α : Type} (m : List (List Nat × α)) (k : List Nat)
    (h : k ∉ m.map (fun p => p.1)) : dictGet m k = none := by
  have hall : ∀ x ∈ m.reverse, ¬((x.1 == k) = true) := by
    intro x hx hbeq
    rw [List.mem_reverse] at hx
    rw [beq_iff_eq] at hbeq
    exact h (List.mem_map.mpr ⟨x, hx, hbeq⟩)
  unfold dictGet
  rw [List.find?_eq_none.mpr hall]
  rfl

/-- C7: the computation produces exactly one result per canonical key
in the union of the keys of the three sources; a key absent from the
stock map gets stock 0, and a key absent from the lead-time map is
computed with zero lead-time days; no part is omitted and nothing is
raised for missing sources. -/
theorem C7_union_one_result_per_key (wbzTbl : List (List Nat × ℤ))
    (stockTbl : List (List Nat × ℚ)) (dispo : List DispoRow) (today : ℤ) :
    (fetchDataResults wbzTbl stockTbl dispo today).length =
      (partsUnion dispo (stockTbl.map (fun p => p.1)) (wbzTbl.map (fun p => p.1))).length ∧
    (partsUnion dispo (stockTbl.map (fun p => p.1)) (wbzTbl.map (fun p => p.1))).Nodup ∧
    (∀ k : List Nat,
      k ∈ partsUnion dispo (stockTbl.map (fun p => p.1)) (wbzTbl.map (fun p => p.1)) ↔
        ((∃ r ∈ dispo, r.teilNorm = k) ∨ (∃ p ∈ stockTbl, p.1 = k) ∨
          (∃ p ∈ wbzTbl, p.1 = k))) ∧
    (∀ k : List Nat,
      k ∈ partsUnion dispo (stockTbl.map (fun p => p.1)) (wbzTbl.map (fun p => p.1)) →
        compute_for_part k (dispo.filter (fun r => r.teilNorm == k))
            ((dictGet wbzTbl k).getD 0) ((dictGet stockTbl k).getD 0) today
          ∈ fetchDataResults wbzTbl stockTbl dispo today) ∧
    (∀ k : List Nat, k ∉ stockTbl.map (fun p => p.1) →
      (compute_for_part k (dispo.filter (fun r => r.teilNorm == k))
          ((dictGet wbzTbl k).getD 0) ((dictGet stockTbl k).getD 0) today).bestandHeute
        = 0) ∧
    (∀ k : List Nat, k ∉ wbzTbl.map (fun p => p.1) →
      (compute_for_part k (dispo.filter (fun r => r.teilNorm == k))
          ((dictGet wbzTbl k).getD 0) ((dictGet stockTbl k).getD 0) today).wbzEnde =
        calc_wbz_end (dispo.filter (fun r => r.teilNorm == k)) 0 today) := by
  refine ⟨?_, List.nodup_dedup _, ?_, ?_, ?_, ?_⟩
  · unfold fetchDataResults
    exact List.length_map _ _
  · intro k
    unfold partsUnion
    rw [List.mem_dedup]
    simp only [List.mem_append, List.mem_map]
    constructor
    · rintro ((⟨r, hr, he⟩ | ⟨p, hp, he⟩) | ⟨p, hp, he⟩)
      · exact Or.inl ⟨r, hr, he⟩
      · exact Or.inr (Or.inl ⟨p, hp, he⟩)
      · exact Or.inr (Or.inr ⟨p, hp, he⟩)
    · rintro (⟨r, hr, he⟩ | ⟨p, hp, he⟩ | ⟨p, hp, he⟩)
      · exact Or.inl (Or.inl ⟨r, hr, he⟩)
      · exact Or.inl (Or.inr ⟨p, hp, he⟩)
      · exact Or.inr ⟨p, hp, he⟩
  · intro k hk
    unfold fetchDataResults
    exact List.mem_map.mpr ⟨k, hk, rfl⟩
  · intro k hk
    rw [dictGet_eq_none stockTbl k hk]
    rfl
  · intro k hk
    rw [dictGet_eq_none wbzTbl k hk]
    rfl

theorem C7_witness :
    (compute_for_part (codes ("x")) ([rowBlank].filter (fun r => r.teilNorm == codes ("x")))
        ((dictGet [(codes ("w"), (3 : ℤ))] (codes ("x"))).getD 0)
        ((dictGet ([] : List (List Nat × ℚ)) (codes ("x"))).getD 0) 4).bestandHeute = 0 :=
  (C7_union_one_result_per_key [(codes ("w"), (3 : ℤ))] [] [rowBlank] 4).2.2.2.2.1
    (codes ("x")) (by simp)

end Bestand

namespace Bestand

/-- C8: in remote mode, failure of any one of the three feed
retrievals aborts the whole computation with an HTTP 502 carrying the
first failure's detail; no per-part results are produced. -/
theorem C8_upstream_unavailable (r1 r2 r3 : Except (List Nat) RawTable) (today : ℤ)
    (h : r1.isOk = false ∨ r2.isOk = false ∨ r3.isOk = false) :
    pipelineRemote r1 r2 r3 today =
      Except.error (PipeErr.http 502 (firstErr r1 r2 r3)) := by
  cases r1 with
  | error e => rfl
  | ok w =>
    cases r2 with
    | error e => rfl
    | ok d =>
      cases r3 with
      | error e => rfl
      | ok s =>
          exfalso
          rcases h with h | h | h <;> simp [Except.isOk, Except.toBool] at h

theorem C8_witness :
    pipelineRemote (Except.error (codes ("connection refused"))) (Except.ok tblDEmpty)
        (Except.ok tblS0) 4 =
      Except.error (PipeErr.http 502
        (firstErr (Except.error (codes ("connection refused"))) (Except.ok tblDEmpty)
          (Except.ok tblS0))) :=
  C8_upstream_unavailable (Except.error (codes ("connection refused")))
    (Except.ok tblDEmpty) (Except.ok tblS0) 4 (Or.inl rfl)

/-- C9 fails as stated: with all three feeds retrieved successfully
but the transaction table lacking any part-identifier column, the
computation surfaces a `KeyError` (an error other than
UpstreamUnavailable) instead of recovering with a fallback. -/
theorem C9_counterexample :
    pipelineRemote (Except.ok tblW0) (Except.ok tblDNoTeil) (Except.ok tblS0) 4 =
      Except.error PipeErr.keyErr := by
  rfl

/-- C9 (amended): the frame-level computation succeeds exactly when the
transaction table has a part-identifier column; every other absent
column in any feed is recovered by alias fallback or a neutral default
and never raises. -/
theorem C9_local_schema_recovery (w d s : RawTable) (today : ℤ) :
    (∃ res, pipelineFrames w d s today = Except.ok res) ↔
      (findTeilCol ((stripHdrs d).cols)).isSome = true := by
  unfold pipelineFrames
  cases h : findTeilCol (stripHdrs d).cols with
  | none => simp [h]
  | some c => simp [h]

theorem C9_witness :
    ∃ res, pipelineFrames tblW0 tblDEmpty tblS0 4 = Except.ok res :=
  (C9_local_schema_recovery tblW0 tblDEmpty tblS0 4).mpr (by decide)

end Bestand

namespace Bestand

theorem parseNum_five : parseNum (codes ("5")) = some 5 := by
  have hc : codes ("5") = [53] := by decide
  rw [hc]
  unfold parseNum
  have hs : stripL [53] = [53] := by decide
  simp only [hs]
  have ht : List.takeWhile isDigitCode [53] = [53] := by decide
  have hd : List.dropWhile isDigitCode [53] = [] := by decide
  simp only [ht, hd]
  norm_num [digitsVal, List.foldl_cons, List.foldl_nil]

theorem prepStock_c10 : prepStock (stripHdrs (fixStock tblStockBad)) =
    [(codes ("nan"), (0 : ℚ)), (codes ("p1"), (5 : ℚ))] := by
  have hstrip : stripHdrs (fixStock tblStockBad) =
      { cols := [codes ("Teil"), codes ("Anzahl")]
        rows := [[none, none], [some (codes ("P1")), some (codes ("5"))]] } := by decide
  rw [hstrip]
  unfold prepStock
  have hfind : findTeilCol [codes ("Teil"), codes ("Anzahl")] = some (codes ("Teil")) := by
    decide
  simp only [hfind, List.map_cons, List.map_nil]
  have hk1 : cleanPart (astypeStr (cellAt [codes ("Teil"), codes ("Anzahl")]
      [none, none] (codes ("Teil")))) = codes ("nan") := by decide
  have hk2 : cleanPart (astypeStr (cellAt [codes ("Teil"), codes ("Anzahl")]
      [some (codes ("P1")), some (codes ("5"))] (codes ("Teil")))) = codes ("p1") := by decide
  rw [hk1, hk2]
  have hn1 : numAt [codes ("Teil"), codes ("Anzahl")] [none, none] stockAliases = 0 := by
    unfold numAt
    have hf : stockAliases.find?
        (fun n => [codes ("Teil"), codes ("Anzahl")].contains n)
          = some (codes ("Anzahl")) := by
      decide
    rw [hf]
    show ((cellAt [codes ("Teil"), codes ("Anzahl")] [none, none]
        (codes ("Anzahl"))).bind parseNum).getD 0 = 0
    have hcell : cellAt [codes ("Teil"), codes ("Anzahl")] [none, none]
        (codes ("Anzahl")) = none := by decide
    rw [hcell]
    rfl
  have hn2 : numAt [codes ("Teil"), codes ("Anzahl")]
      [some (codes ("P1")), some (codes ("5"))] stockAliases = 5 := by
    unfold numAt
    have hf : stockAliases.find?
        (fun n => [codes ("Teil"), codes ("Anzahl")].contains n)
          = some (codes ("Anzahl")) := by
      decide
    rw [hf]
    show ((cellAt [codes ("Teil"), codes ("Anzahl")]
        [some (codes ("P1")), some (codes ("5"))] (codes ("Anzahl"))).bind parseNum).getD 0
      = 5
    have hcell : cellAt [codes ("Teil"), codes ("Anzahl")]
        [some (codes ("P1")), some (codes ("5"))] (codes ("Anzahl")) = some (codes ("5")) := by
      decide
    rw [hcell]
    show (parseNum (codes ("5"))).getD 0 = 5
    rw [parseNum_five]
    rfl
  rw [hn1, hn2]

theorem c10_run_eval : c10Run = Except.ok [resNan, resP1] := by
  have hW : prepWbz (stripHdrs tblWEmpty) = [] := by decide
  have hD : mkDispoRows (stripHdrs tblDEmpty) (codes ("Teil")) = [] := by decide
  have hfind : findTeilCol (stripHdrs tblDEmpty).cols = some (codes ("Teil")) := by decide
  show pipelineFrames tblWEmpty tblDEmpty tblStockBad 4 = Except.ok [resNan, resP1]
  unfold pipelineFrames
  simp only [hfind, hW, hD, prepStock_c10]
  congr 1
  unfold fetchDataResults partsUnion
  have hkeys : (([] : List DispoRow).map (fun r => r.teilNorm) ++
      ([(codes ("nan"), (0 : ℚ)), (codes ("p1"), (5 : ℚ))].map (fun p => p.1)) ++
      ([] : List (List Nat × ℤ)).map (fun p => p.1)).dedup =
      [codes ("nan"), codes ("p1")] := by
    show ([codes ("nan"), codes ("p1")] : List (List Nat)).dedup =
      [codes ("nan"), codes ("p1")]
    decide
  rw [hkeys]
  simp only [List.map_cons, List.map_nil]
  have hg1 : ((dictGet [(codes ("nan"), (0 : ℚ)), (codes ("p1"), (5 : ℚ))]
      (codes ("nan"))).getD 0) = 0 := rfl
  have hg2 : ((dictGet [(codes ("nan"), (0 : ℚ)), (codes ("p1"), (5 : ℚ))]
      (codes ("p1"))).getD 0) = 5 := rfl
  have hw1 : ((dictGet ([] : List (List Nat × ℤ)) (codes ("nan"))).getD 0) = 0 := rfl
  have hw2 : ((dictGet ([] : List (List Nat × ℤ)) (codes ("p1"))).getD 0) = 0 := rfl
  have hfil : ∀ k : List Nat, ([] : List DispoRow).filter (fun r => r.teilNorm == k) = [] :=
    fun k => rfl
  rw [hg1, hg2, hw1, hw2, hfil, hfil]
  have hb : busday_add 4 0 = 4 := by decide
  have hcN : compute_for_part (codes ("nan")) [] 0 0 4 = resNan := by
    unfold compute_for_part calc_wbz_end
    simp only [List.filter_nil, List.map_nil, List.sum_nil, hb, resNan]
    norm_num
  have hcP : compute_for_part (codes ("p1")) [] 0 5 4 = resP1 := by
    unfold compute_for_part calc_wbz_end
    simp only [List.filter_nil, List.map_nil, List.sum_nil, hb, resP1]
    norm_num
  rw [hcN, hcP]

/-- C10 fails as stated: on the single-column stock feed whose first
row is "P2,notanumber", the quantity does default to 0, but the regex
fails to capture the part name as well, so no result keyed "p2" (nor
"P2") appears in the output. -/
theorem C10_counterexample :
    c10Run = Except.ok [resNan, resP1] ∧
    codes ("p2") ∉ [resNan, resP1].map (fun r => r.teil) ∧
    codes ("P2") ∉ [resNan, resP1].map (fun r => r.teil) :=
  ⟨c10_run_eval, by decide, by decide⟩

/-- C10 (amended): the malformed row "P2,notanumber" does not match
the repair pattern, so both its part and quantity become missing; it
surfaces as a result keyed "nan" with stock 0 (the batch does not
fail), while the matching row "P1,5" yields part "p1" with stock 5;
"P2" itself is absent from the output. -/
theorem C10_nan_key_with_zero_stock :
    matchStockPat (codes ("P2,notanumber")) = none ∧
    c10Run = Except.ok [resNan, resP1] ∧
    resNan.teil = codes ("nan") ∧ resNan.bestandHeute = 0 ∧
    resP1.teil = codes ("p1") ∧ resP1.bestandHeute = 5 :=
  ⟨by decide, c10_run_eval, rfl, rfl, rfl, rfl⟩

end Bestand
